import Mathlib

/-!
Verification of the eotest repository's natural-language specification
against a shallow embedding of its Python sources.

Each Python module relevant to the claims is embedded as a set of Lean
definitions in its own namespace:

* `AmpGeom`     — `sensor/AmplifierGeometry.py`
* `CcdBiasPca`  — `sensor/ccd_bias_pca.py`
* `Fe55Psf`     — `fe55_psf.py`
* `NLC`         — `sensor/NonlinearityCorrection.py`
* `Prnu`        — `sensor/prnuTask.py`
* `Spot`        — `sensor/spotTask.py`

Machine floats of the Python code are modelled as exact rationals; calls
into the external frameworks (afw, scipy, sklearn, astropy internals) are
modelled as abstract function parameters or as oracle data carried by the
inputs, never as stubs of repository code.  Python exceptions are modelled
with `Except` and an explicit `PyError` type; an unbound-name reference
(`NameError` / its subclass `UnboundLocalError`) is modelled by an explicit
failing lookup of the local or global environment at the point of use.
-/

/-- Python exceptions that the embedded code can raise.  `nameError v`
covers both `NameError` and its subclass `UnboundLocalError` for the
variable named `v`. -/
inductive PyError where
  | nameError (var : String)
  | indexError
  | runtimeError
  | other (msg : String)
deriving Repr, DecidableEq

namespace AmpGeom

/-- `lsst.afw.geom.Box2I`: an integer box given by its inclusive minimum
and maximum corners, as used in `AmplifierGeometry.__init__`. -/
structure Box2I where
  x0 : ℤ
  y0 : ℤ
  x1 : ℤ
  y1 : ℤ
deriving Repr, DecidableEq

/-- Pixel membership in a `Box2I` (corners inclusive, as in afw). -/
def Box2I.mem (b : Box2I) (x y : ℤ) : Prop :=
  b.x0 ≤ x ∧ x ≤ b.x1 ∧ b.y0 ≤ y ∧ y ≤ b.y1

instance (b : Box2I) (x y : ℤ) : Decidable (b.mem x y) :=
  inferInstanceAs (Decidable (_ ∧ _ ∧ _ ∧ _))

/-- `AmplifierGeometry.nsegx` -/
def nsegx : ℤ := 8

/-- `AmplifierGeometry.nsegy` -/
def nsegy : ℤ := 2

/-- The geometry attributes set by `AmplifierGeometry.__init__`.  The five
region boxes are plain attributes of the object, computed once from the
constructor arguments; the per-amp entries `self[amp]` hold only the
DETSIZE/DATASEC/DETSEC header strings, not regions. -/
structure AmplifierGeometry where
  naxis1 : ℤ
  naxis2 : ℤ
  nx : ℤ
  ny : ℤ
  full_segment : Box2I
  prescan : Box2I
  imaging : Box2I
  serial_overscan : Box2I
  parallel_overscan : Box2I
deriving Repr, DecidableEq

/-- `AmplifierGeometry.__init__(prescan, serial_overscan,
parallel_overscan, detxsize, detysize)`.  The code runs under Python 2,
so `detxsize/self.nsegx` is integer division; the claims restrict to
`8 ∣ detxsize` and `2 ∣ detysize`, where `/` is exact. -/
def AmplifierGeometry.init (prescan serial_overscan parallel_overscan
    detxsize detysize : ℤ) : AmplifierGeometry :=
  let naxis1 := detxsize / nsegx
  let naxis2 := detysize / nsegy
  let nx := naxis1 - prescan - serial_overscan
  let ny := naxis2 - parallel_overscan
  { naxis1 := naxis1
    naxis2 := naxis2
    nx := nx
    ny := ny
    full_segment := ⟨0, 0, naxis1 - 1, naxis2 - 1⟩
    prescan := ⟨0, 0, prescan - 1, naxis2 - 1⟩
    imaging := ⟨prescan, 0, nx + prescan - 1, ny - 1⟩
    serial_overscan := ⟨nx + prescan, 0, naxis1 - 1, naxis2 - 1⟩
    parallel_overscan := ⟨prescan, naxis2 - parallel_overscan,
                          naxis1 - serial_overscan, naxis2 - 1⟩ }

/-- C3 counterexample: with the default construction parameters
(`prescan=10, serial_overscan=20, parallel_overscan=20, detxsize=4336,
detysize=4044`) the pixel `(x, y) = (522, 2002)` lies in both the
`serial_overscan` region and the `parallel_overscan` region, so the four
regions are not pairwise disjoint as claimed: `parallel_overscan` extends
to column `naxis1 - serial_overscan = 522`, which is the first column of
`serial_overscan`. -/
theorem amplifier_geometry_overscans_overlap :
    (AmplifierGeometry.init 10 20 20 4336 4044).serial_overscan.mem 522 2002 ∧
    (AmplifierGeometry.init 10 20 20 4336 4044).parallel_overscan.mem 522 2002 := by
  decide

/-- C3 (amended): for every `AmplifierGeometry` constructed with positive
`prescan`, `serial_overscan`, `parallel_overscan` satisfying
`prescan + serial_overscan ≤ detxsize/8` and
`parallel_overscan ≤ detysize/2` (with `detxsize` divisible by 8 and
`detysize` by 2), the four regions `prescan`, `imaging`,
`serial_overscan`, `parallel_overscan` are each contained in
`full_segment`; the pairs not involving both overscans are disjoint; and
`serial_overscan` and `parallel_overscan` intersect exactly in the single
column `x = prescan + nx` over the parallel-overscan rows.  All regions
are plain attributes fixed at construction, shared by all 16 amplifiers. -/
theorem amplifier_geometry_regions (prescan serial_overscan parallel_overscan
    detxsize detysize : ℤ) (x y : ℤ)
    (_hdx : 8 ∣ detxsize) (_hdy : 2 ∣ detysize)
    (h1 : 1 ≤ prescan) (h2 : 1 ≤ serial_overscan) (h3 : 1 ≤ parallel_overscan)
    (hx : prescan + serial_overscan ≤ detxsize / 8)
    (hy : parallel_overscan ≤ detysize / 2) :
    ((AmplifierGeometry.init prescan serial_overscan parallel_overscan
        detxsize detysize).prescan.mem x y →
      (AmplifierGeometry.init prescan serial_overscan parallel_overscan
        detxsize detysize).full_segment.mem x y) ∧
    ((AmplifierGeometry.init prescan serial_overscan parallel_overscan
        detxsize detysize).imaging.mem x y →
      (AmplifierGeometry.init prescan serial_overscan parallel_overscan
        detxsize detysize).full_segment.mem x y) ∧
    ((AmplifierGeometry.init prescan serial_overscan parallel_overscan
        detxsize detysize).serial_overscan.mem x y →
      (AmplifierGeometry.init prescan serial_overscan parallel_overscan
        detxsize detysize).full_segment.mem x y) ∧
    ((AmplifierGeometry.init prescan serial_overscan parallel_overscan
        detxsize detysize).parallel_overscan.mem x y →
      (AmplifierGeometry.init prescan serial_overscan parallel_overscan
        detxsize detysize).full_segment.mem x y) ∧
    ¬((AmplifierGeometry.init prescan serial_overscan parallel_overscan
        detxsize detysize).prescan.mem x y ∧
      (AmplifierGeometry.init prescan serial_overscan parallel_overscan
        detxsize detysize).imaging.mem x y) ∧
    ¬((AmplifierGeometry.init prescan serial_overscan parallel_overscan
        detxsize detysize).prescan.mem x y ∧
      (AmplifierGeometry.init prescan serial_overscan parallel_overscan
        detxsize detysize).serial_overscan.mem x y) ∧
    ¬((AmplifierGeometry.init prescan serial_overscan parallel_overscan
        detxsize detysize).prescan.mem x y ∧
      (AmplifierGeometry.init prescan serial_overscan parallel_overscan
        detxsize detysize).parallel_overscan.mem x y) ∧
    ¬((AmplifierGeometry.init prescan serial_overscan parallel_overscan
        detxsize detysize).imaging.mem x y ∧
      (AmplifierGeometry.init prescan serial_overscan parallel_overscan
        detxsize detysize).serial_overscan.mem x y) ∧
    ¬((AmplifierGeometry.init prescan serial_overscan parallel_overscan
        detxsize detysize).imaging.mem x y ∧
      (AmplifierGeometry.init prescan serial_overscan parallel_overscan
        detxsize detysize).parallel_overscan.mem x y) ∧
    (((AmplifierGeometry.init prescan serial_overscan parallel_overscan
        detxsize detysize).serial_overscan.mem x y ∧
      (AmplifierGeometry.init prescan serial_overscan parallel_overscan
        detxsize detysize).parallel_overscan.mem x y) ↔
      (x = prescan + (AmplifierGeometry.init prescan serial_overscan
          parallel_overscan detxsize detysize).nx ∧
       detysize / 2 - parallel_overscan ≤ y ∧ y ≤ detysize / 2 - 1)) := by
  simp only [AmplifierGeometry.init, Box2I.mem, nsegx, nsegy]
  omega

/-- C3 witness: the amended region statement instantiated at the default
e2V parameters and the overlap pixel `(522, 2002)`. -/
theorem amplifier_geometry_regions_witness :
    ((AmplifierGeometry.init 10 20 20 4336 4044).prescan.mem 522 2002 →
      (AmplifierGeometry.init 10 20 20 4336 4044).full_segment.mem 522 2002) ∧
    ((AmplifierGeometry.init 10 20 20 4336 4044).imaging.mem 522 2002 →
      (AmplifierGeometry.init 10 20 20 4336 4044).full_segment.mem 522 2002) ∧
    ((AmplifierGeometry.init 10 20 20 4336 4044).serial_overscan.mem 522 2002 →
      (AmplifierGeometry.init 10 20 20 4336 4044).full_segment.mem 522 2002) ∧
    ((AmplifierGeometry.init 10 20 20 4336 4044).parallel_overscan.mem 522 2002 →
      (AmplifierGeometry.init 10 20 20 4336 4044).full_segment.mem 522 2002) ∧
    ¬((AmplifierGeometry.init 10 20 20 4336 4044).prescan.mem 522 2002 ∧
      (AmplifierGeometry.init 10 20 20 4336 4044).imaging.mem 522 2002) ∧
    ¬((AmplifierGeometry.init 10 20 20 4336 4044).prescan.mem 522 2002 ∧
      (AmplifierGeometry.init 10 20 20 4336 4044).serial_overscan.mem 522 2002) ∧
    ¬((AmplifierGeometry.init 10 20 20 4336 4044).prescan.mem 522 2002 ∧
      (AmplifierGeometry.init 10 20 20 4336 4044).parallel_overscan.mem 522 2002) ∧
    ¬((AmplifierGeometry.init 10 20 20 4336 4044).imaging.mem 522 2002 ∧
      (AmplifierGeometry.init 10 20 20 4336 4044).serial_overscan.mem 522 2002) ∧
    ¬((AmplifierGeometry.init 10 20 20 4336 4044).imaging.mem 522 2002 ∧
      (AmplifierGeometry.init 10 20 20 4336 4044).parallel_overscan.mem 522 2002) ∧
    (((AmplifierGeometry.init 10 20 20 4336 4044).serial_overscan.mem 522 2002 ∧
      (AmplifierGeometry.init 10 20 20 4336 4044).parallel_overscan.mem 522 2002) ↔
      (522 = 10 + (AmplifierGeometry.init 10 20 20 4336 4044).nx ∧
       (4044 : ℤ) / 2 - 20 ≤ 2002 ∧ (2002 : ℤ) ≤ (4044 : ℤ) / 2 - 1)) :=
  amplifier_geometry_regions 10 20 20 4336 4044 522 2002
    (by decide) (by decide) (by decide) (by decide) (by decide)
    (by decide) (by decide)

end AmpGeom

namespace CcdBiasPca

/-- `CCD_bias_PCA.mean_oscan_corner(imarr, buff=0)`: the mean pixel value
of the region common to the parallel and serial overscans,
`np.mean(imarr[y_oscan_corner:, x_oscan_corner:])`, for a full-segment
array of shape `ny × nx`. -/
def mean_oscan_corner (y_oscan_corner x_oscan_corner ny nx : ℕ)
    (imarr : ℕ → ℕ → ℚ) : ℚ :=
  (∑ i ∈ Finset.Ico y_oscan_corner ny,
      ∑ j ∈ Finset.Ico x_oscan_corner nx, imarr i j) /
    (((ny - y_oscan_corner : ℕ) : ℚ) * ((nx - x_oscan_corner : ℕ) : ℚ))

/-- The value of `bias_model` in `CCD_bias_PCA.pca_bias_correction` just
before the final `bias_model += self.mean_oscan_corner(image_array -
bias_model)` statement.  The external library calls are abstract
parameters: `defect_repair_par`/`defect_repair_ser` stand for
`defect_repair` applied to the parallel/serial overscan slices, and
`pcax_serial_model`/`pcay_parallel_model` stand for the composite
`transform`/`inverse_transform`/`np.mean(..., axis=0)` of the sklearn PCA
objects applied to the indicated (transposed, for pcay) slices.  Slices
are modelled by index translation; the broadcast in
`(bias_model.T + parallel_model).T` adds `parallel_model i` to row `i`,
as the code requires `ystart = 0` (its default) for the shapes to agree. -/
def pca_bias_correction_pre (y_oscan_corner x_oscan_corner ystart xstart
    ny nx : ℕ) (mean_amp : ℕ → ℕ → ℚ)
    (defect_repair_par defect_repair_ser : (ℕ → ℕ → ℚ) → ℕ → ℕ → ℚ)
    (pcax_serial_model pcay_parallel_model : (ℕ → ℕ → ℚ) → ℕ → ℚ)
    (image_array : ℕ → ℕ → ℚ) : ℕ → ℕ → ℚ :=
  let imarr0 : ℕ → ℕ → ℚ := fun i j => image_array i j - mean_amp i j
  let imarr1 : ℕ → ℕ → ℚ := fun i j =>
    if y_oscan_corner ≤ i then
      defect_repair_par (fun a b => imarr0 (y_oscan_corner + a) b)
        (i - y_oscan_corner) j
    else imarr0 i j
  let imarr2 : ℕ → ℕ → ℚ := fun i j =>
    if x_oscan_corner ≤ j then
      defect_repair_ser (fun a b => imarr1 a (x_oscan_corner + b))
        i (j - x_oscan_corner)
    else imarr1 i j
  let corner_mean := mean_oscan_corner y_oscan_corner x_oscan_corner ny nx imarr2
  let imarr3 : ℕ → ℕ → ℚ := fun i j => imarr2 i j - corner_mean
  let serial_model : ℕ → ℚ :=
    pcax_serial_model (fun a b => imarr3 (y_oscan_corner + a) (xstart + b))
  let imarr4 : ℕ → ℕ → ℚ := fun i j =>
    if ystart ≤ i ∧ xstart ≤ j then imarr3 i j - serial_model (j - xstart)
    else imarr3 i j
  let parallel_model : ℕ → ℚ :=
    pcay_parallel_model (fun a b => imarr4 (ystart + b) (x_oscan_corner + a))
  let bias0 : ℕ → ℕ → ℚ := fun i j => mean_amp i j + corner_mean
  let bias1 : ℕ → ℕ → ℚ := fun i j =>
    if ystart ≤ i ∧ xstart ≤ j then bias0 i j + serial_model (j - xstart)
    else bias0 i j
  fun i j => bias1 i j + parallel_model i

/-- `CCD_bias_PCA.pca_bias_correction(amp, image_array)`: the returned
full-segment bias model, i.e. the pre-final model plus the mean of
`image_array - bias_model` over the overscan corner. -/
def pca_bias_correction (y_oscan_corner x_oscan_corner ystart xstart
    ny nx : ℕ) (mean_amp : ℕ → ℕ → ℚ)
    (defect_repair_par defect_repair_ser : (ℕ → ℕ → ℚ) → ℕ → ℕ → ℚ)
    (pcax_serial_model pcay_parallel_model : (ℕ → ℕ → ℚ) → ℕ → ℚ)
    (image_array : ℕ → ℕ → ℚ) : ℕ → ℕ → ℚ :=
  let bias_model := pca_bias_correction_pre y_oscan_corner x_oscan_corner
    ystart xstart ny nx mean_amp defect_repair_par defect_repair_ser
    pcax_serial_model pcay_parallel_model image_array
  fun i j => bias_model i j +
    mean_oscan_corner y_oscan_corner x_oscan_corner ny nx
      (fun a b => image_array a b - bias_model a b)

/-- Subtracting a constant from every pixel shifts the overscan-corner
mean by that constant, provided the corner region is non-empty. -/
lemma mean_oscan_corner_sub_const (y_oscan_corner x_oscan_corner ny nx : ℕ)
    (hy : y_oscan_corner < ny) (hx : x_oscan_corner < nx)
    (f : ℕ → ℕ → ℚ) (c : ℚ) :
    mean_oscan_corner y_oscan_corner x_oscan_corner ny nx
      (fun i j => f i j - c)
      = mean_oscan_corner y_oscan_corner x_oscan_corner ny nx f - c := by
  have h1 : (((ny - y_oscan_corner : ℕ) : ℚ)) ≠ 0 := by
    exact_mod_cast Nat.sub_ne_zero_of_lt hy
  have h2 : (((nx - x_oscan_corner : ℕ) : ℚ)) ≠ 0 := by
    exact_mod_cast Nat.sub_ne_zero_of_lt hx
  simp only [mean_oscan_corner, Finset.sum_sub_distrib, Finset.sum_const,
    Nat.card_Ico, nsmul_eq_mul]
  field_simp
  ring

/-- C1: for every amplifier model and full-segment image array, the
array returned by `pca_bias_correction` leaves a zero mean residual over
the overscan corner (rows `≥ y_oscan_corner`, columns `≥ x_oscan_corner`)
in exact rational arithmetic, because the final step adds
`mean_oscan_corner(image_array - bias_model)` to the model.  This holds
for every value of the abstract external components. -/
theorem pca_bias_correction_corner_mean_zero (y_oscan_corner x_oscan_corner
    ystart xstart ny nx : ℕ) (mean_amp : ℕ → ℕ → ℚ)
    (defect_repair_par defect_repair_ser : (ℕ → ℕ → ℚ) → ℕ → ℕ → ℚ)
    (pcax_serial_model pcay_parallel_model : (ℕ → ℕ → ℚ) → ℕ → ℚ)
    (image_array : ℕ → ℕ → ℚ)
    (hy : y_oscan_corner < ny) (hx : x_oscan_corner < nx) :
    mean_oscan_corner y_oscan_corner x_oscan_corner ny nx
      (fun i j => image_array i j -
        pca_bias_correction y_oscan_corner x_oscan_corner ystart xstart
          ny nx mean_amp defect_repair_par defect_repair_ser
          pcax_serial_model pcay_parallel_model image_array i j) = 0 := by
  set B := pca_bias_correction_pre y_oscan_corner x_oscan_corner ystart
    xstart ny nx mean_amp defect_repair_par defect_repair_ser
    pcax_serial_model pcay_parallel_model image_array with hB
  have hunfold : pca_bias_correction y_oscan_corner x_oscan_corner ystart
      xstart ny nx mean_amp defect_repair_par defect_repair_ser
      pcax_serial_model pcay_parallel_model image_array
      = fun i j => B i j +
          mean_oscan_corner y_oscan_corner x_oscan_corner ny nx
            (fun a b => image_array a b - B a b) := rfl
  rw [hunfold]
  have hsplit : (fun i j => image_array i j -
      (B i j + mean_oscan_corner y_oscan_corner x_oscan_corner ny nx
        (fun a b => image_array a b - B a b)))
      = fun i j => (fun a b => image_array a b - B a b) i j -
          mean_oscan_corner y_oscan_corner x_oscan_corner ny nx
            (fun a b => image_array a b - B a b) := by
    funext i j
    ring
  rw [hsplit, mean_oscan_corner_sub_const y_oscan_corner x_oscan_corner
    ny nx hy hx]
  ring

/-- C1 witness: the corner-mean residual is zero on a concrete 2×2
segment with corner pixel `(1, 1)`, identity repairs and zero PCA
models. -/
theorem pca_bias_correction_corner_mean_zero_witness :
    1 < 2 ∧
    mean_oscan_corner 1 1 2 2
      (fun i j => ((i : ℚ) * 2 + (j : ℚ)) -
        pca_bias_correction 1 1 0 0 2 2 (fun _ _ => 0) (fun f => f)
          (fun f => f) (fun _ _ => 0) (fun _ _ => 0)
          (fun i j => ((i : ℚ) * 2 + (j : ℚ))) i j) = 0 :=
  ⟨by decide,
   pca_bias_correction_corner_mean_zero 1 1 0 0 2 2 (fun _ _ => 0)
     (fun f => f) (fun f => f) (fun _ _ => 0) (fun _ _ => 0)
     (fun i j => ((i : ℚ) * 2 + (j : ℚ))) (by decide) (by decide)⟩

end CcdBiasPca

namespace Fe55Psf

/-- `pixel_integral(x, y, x0, y0, sigma)`: integral of a unit 2D Gaussian
over a unit pixel.  The module constant `_sqrt2 = np.sqrt(2)` (a machine
float) and `scipy.special.erf` are abstract parameters. -/
def pixel_integral (sqrt2 : ℚ) (erf : ℚ → ℚ) (x y x0 y0 sigma : ℚ) : ℚ :=
  let x1 := x - 1/2
  let x2 := x + 1/2
  let y1 := y - 1/2
  let y2 := y + 1/2
  let Fx := 1/2 * (erf ((x2 - x0) / sqrt2 / sigma) -
                   erf ((x1 - x0) / sqrt2 / sigma))
  let Fy := 1/2 * (erf ((y2 - y0) / sqrt2 / sigma) -
                   erf ((y1 - y0) / sqrt2 / sigma))
  Fx * Fy

/-- The possible runtime types of the `pos` argument of `psf_func`; the
code checks `type(pos) == type([])`, so only `pyList` takes the list
branch. -/
inductive PsfPos where
  | pyList (xs : List (ℚ × ℚ))
  | pyTuple (p : ℚ × ℚ)
  | ndarray (xs : List (ℚ × ℚ))
deriving Repr

/-- A value returned by `psf_func`: a numpy array in the list branch, a
scalar otherwise. -/
inductive PyVal where
  | scalar (q : ℚ)
  | arr (qs : List ℚ)
deriving Repr

/-- The list branch of `psf_func`:
`DN*np.array([pixel_integral(x[0], x[1], x0, y0, sigma) for x in pos])`. -/
def psf_func_list (sqrt2 : ℚ) (erf : ℚ → ℚ) (xs : List (ℚ × ℚ))
    (x0 y0 sigma DN : ℚ) : List ℚ :=
  xs.map fun x => DN * pixel_integral sqrt2 erf x.1 x.2 x0 y0 sigma

/-- `psf_func(pos, *args)`.  The local name `x` is bound only by the list
comprehension in the list branch; at function entry it is unbound, so the
non-list branch, which evaluates `x[0]` and `x[1]`, reads an unbound
local. -/
def psf_func (sqrt2 : ℚ) (erf : ℚ → ℚ) (pos : PsfPos)
    (x0 y0 sigma DN : ℚ) : Except PyError PyVal :=
  let xlocal : Option (ℚ × ℚ) := none
  match pos with
  | .pyList xs => .ok (.arr (psf_func_list sqrt2 erf xs x0 y0 sigma DN))
  | _ =>
    match xlocal with
    | some x => .ok (.scalar (DN * pixel_integral sqrt2 erf x.1 x.2 x0 y0 sigma))
    | none => .error (.nameError "x")

/-- `chisq(pos, dn, args)` for the list-of-positions case in which
`process_image` calls it:
`sum((psf_func(pos, *tuple(args)) - np.array(dn))**2)`. -/
def chisq (sqrt2 : ℚ) (erf : ℚ → ℚ) (pos : List (ℚ × ℚ)) (dn : List ℚ)
    (args : ℚ × ℚ × ℚ × ℚ) : ℚ :=
  (((psf_func_list sqrt2 erf pos args.1 args.2.1 args.2.2.1 args.2.2.2).zip
     dn).map fun p => (p.1 - p.2) ^ 2).sum

/-- Outcome of the external `scipy.optimize.curve_fit` call on one
footprint: fitted parameters `(x0, y0, sigma, dn)`, a `RuntimeError`, or
some other raised exception. -/
inductive FitOutcome where
  | ok (pars : ℚ × ℚ × ℚ × ℚ)
  | runtimeError
  | raised (e : PyError)
deriving Repr, DecidableEq

/-- Whether a curve fit succeeded. -/
def FitOutcome.isOk : FitOutcome → Bool
  | .ok _ => true
  | _ => false

/-- An afw footprint as seen by `process_image`: its pixel count,
span pixels with their image values, and the outcome of the external
curve fit on those data. -/
structure Footprint where
  npix : ℕ
  positions : List (ℚ × ℚ)
  zvals : List ℚ
  curve_fit : FitOutcome

/-- A FITS binary-table extension with named scalar columns. -/
structure FitsTableExt where
  extname : String
  cols : List (String × List ℚ)

/-- An HDU in the accumulated `pyfits.HDUList`. -/
inductive FitsHDU where
  | primary
  | table (ext : FitsTableExt)

/-- The mutable state of a `PsfGaussFit` object. -/
structure PsfGaussFit where
  nsig : ℚ
  min_npix : ℕ
  sigma : List ℚ
  dn : List ℚ
  chiprob : List ℚ
  output : List FitsHDU

/-- `PsfGaussFit.__init__(nsig, min_npix)`. -/
def PsfGaussFit.init (nsig : ℚ) (min_npix : ℕ) : PsfGaussFit :=
  { nsig := nsig, min_npix := min_npix, sigma := [], dn := [], chiprob := []
    output := [.primary] }

/-- The footprint loop of `process_image`, building the per-segment
`x0, y0, sigma, dn, chiprob` lists.  Footprints with fewer than
`min_npix` pixels are skipped; a `RuntimeError` from the fit skips the
footprint; any other exception propagates. -/
def process_footprints (sqrt2 : ℚ) (erf : ℚ → ℚ) (gammaincc : ℚ → ℚ → ℚ)
    (min_npix : ℕ) :
    List Footprint → Except PyError (List ℚ × List ℚ × List ℚ × List ℚ × List ℚ)
  | [] => .ok ([], [], [], [], [])
  | fp :: fps =>
    if fp.npix < min_npix then
      process_footprints sqrt2 erf gammaincc min_npix fps
    else
      match fp.curve_fit with
      | .ok pars => do
        let (x0, y0, sigma, dn, chiprob) ←
          process_footprints sqrt2 erf gammaincc min_npix fps
        let chi2 := chisq sqrt2 erf fp.positions fp.zvals pars
        let dof : ℚ := (fp.npix : ℚ) - 4
        .ok (pars.1 :: x0, pars.2.1 :: y0, pars.2.2.1 :: sigma,
             pars.2.2.2 :: dn, gammaincc (dof / 2) (chi2 / 2) :: chiprob)
      | .runtimeError => process_footprints sqrt2 erf gammaincc min_npix fps
      | .raised e => .error e

/-- `PsfGaussFit._save_ext_data(amp, x0, y0, sigma, dn, chiprob)`: append
one binary-table extension named `'Segment%s' % imutils.channelIds[amp]`
with the five columns.  The channel-id table lives in `image_utils.py`
(outside the given sources) and is an abstract parameter. -/
def save_ext_data (channelIds : ℕ → String) (amp : ℕ)
    (x0 y0 sigma dn chiprob : List ℚ) (output : List FitsHDU) :
    List FitsHDU :=
  output ++ [.table { extname := "Segment" ++ channelIds amp
                      cols := [("XPOS", x0), ("YPOS", y0), ("SIGMA", sigma),
                               ("DN", dn), ("CHIPROB", chiprob)] }]

/-- `PsfGaussFit.process_image(image, amp)`.  The afw preprocessing
(bias subtraction, clipped statistics, threshold detection) is external;
its result — the detected footprints with their pixel data and fit
outcomes — is the `footprints` input.  The initial guess `p0` built from
the footprint peak feeds only the external fit. -/
def process_image (sqrt2 : ℚ) (erf : ℚ → ℚ) (gammaincc : ℚ → ℚ → ℚ)
    (channelIds : ℕ → String) (s : PsfGaussFit)
    (footprints : List Footprint) (amp : ℕ) : Except PyError PsfGaussFit := do
  let (x0, y0, sigma, dn, chiprob) ←
    process_footprints sqrt2 erf gammaincc s.min_npix footprints
  .ok { s with
        output := save_ext_data channelIds amp x0 y0 sigma dn chiprob s.output
        sigma := s.sigma ++ sigma
        dn := s.dn ++ dn
        chiprob := s.chiprob ++ chiprob }

/-- `PsfGaussFit.results(min_prob)`: numpy
`indx = np.where(chiprob > min_prob)` followed by fancy indexing of the
three accumulated arrays; in-range indexing is modelled with `getD`. -/
def results (min_prob : ℚ) (s : PsfGaussFit) : List ℚ × List ℚ × List ℚ :=
  let indx := (List.range s.chiprob.length).filter fun i =>
    decide (min_prob < s.chiprob.getD i 0)
  (indx.map fun i => s.sigma.getD i 0,
   indx.map fun i => s.dn.getD i 0,
   indx.map fun i => s.chiprob.getD i 0)

/-- C10: for every `pos` that is not a Python list (a tuple or an
ndarray), `psf_func(pos, x0, y0, sigma, DN)` raises `NameError` (as
`UnboundLocalError`), because the non-list branch evaluates `x[0]` and
`x[1]` with `x` unbound; only list-valued `pos` returns a value. -/
theorem psf_func_nonlist_nameError (sqrt2 : ℚ) (erf : ℚ → ℚ)
    (pos : PsfPos) (x0 y0 sigma DN : ℚ)
    (h : ∀ xs, pos ≠ PsfPos.pyList xs) :
    psf_func sqrt2 erf pos x0 y0 sigma DN
      = Except.error (PyError.nameError "x") := by
  cases pos with
  | pyList xs => exact absurd rfl (h xs)
  | pyTuple p => rfl
  | ndarray xs => rfl

/-- C10 witness: a concrete tuple argument produces the `NameError`. -/
theorem psf_func_nonlist_nameError_witness :
    (∀ xs, PsfPos.pyTuple (0, 0) ≠ PsfPos.pyList xs) ∧
    psf_func 1 (fun q => q) (PsfPos.pyTuple (0, 0)) 0 0 1 1
      = Except.error (PyError.nameError "x") :=
  ⟨fun _ h => PsfPos.noConfusion h,
   psf_func_nonlist_nameError 1 (fun q => q) (PsfPos.pyTuple (0, 0)) 0 0 1 1
     (fun _ h => PsfPos.noConfusion h)⟩

/-- Binding after a raised exception keeps the exception. -/
lemma except_error_bind {α β : Type} (e : PyError)
    (f : α → Except PyError β) :
    (Except.error e : Except PyError α) >>= f = Except.error e := rfl

/-- Binding after a normal result applies the continuation. -/
lemma except_ok_bind {α β : Type} (a : α) (f : α → Except PyError β) :
    (Except.ok a : Except PyError α) >>= f = f a := rfl

/-- Removing a footprint whose fit raised `RuntimeError` does not change
the result of the footprint loop. -/
lemma process_footprints_runtimeError_skip (sqrt2 : ℚ) (erf : ℚ → ℚ)
    (gammaincc : ℚ → ℚ → ℚ) (min_npix : ℕ) (fps1 fps2 : List Footprint)
    (fp : Footprint) (hfp : fp.curve_fit = FitOutcome.runtimeError) :
    process_footprints sqrt2 erf gammaincc min_npix (fps1 ++ fp :: fps2)
      = process_footprints sqrt2 erf gammaincc min_npix (fps1 ++ fps2) := by
  induction fps1 with
  | nil =>
    simp only [List.nil_append]
    by_cases h : fp.npix < min_npix
    · simp [process_footprints, h]
    · simp [process_footprints, h, hfp]
  | cons a fps1 ih =>
    simp only [List.cons_append]
    by_cases h : a.npix < min_npix
    · simp only [process_footprints, h, if_true]
      exact ih
    · cases hcf : a.curve_fit with
      | ok pars =>
        simp only [process_footprints, h, if_false, hcf, ih]
      | runtimeError =>
        simp only [process_footprints, h, if_false, hcf]
        exact ih
      | raised e =>
        simp only [process_footprints, h, if_false, hcf]

/-- A footprint whose fit raised a non-`RuntimeError` exception (and that
is not skipped by the `min_npix` cut) makes the footprint loop raise. -/
lemma process_footprints_raised_propagates (sqrt2 : ℚ) (erf : ℚ → ℚ)
    (gammaincc : ℚ → ℚ → ℚ) (min_npix : ℕ) (fps : List Footprint)
    (fp : Footprint) (e : PyError) (hmem : fp ∈ fps)
    (hnp : min_npix ≤ fp.npix) (he : fp.curve_fit = FitOutcome.raised e) :
    ∃ e', process_footprints sqrt2 erf gammaincc min_npix fps
      = Except.error e' := by
  induction fps with
  | nil => cases hmem
  | cons a fps ih =>
    rcases List.mem_cons.mp hmem with rfl | hmem'
    · have h : ¬ fp.npix < min_npix := Nat.not_lt.mpr hnp
      exact ⟨e, by simp [process_footprints, h, he]⟩
    · by_cases h : a.npix < min_npix
      · obtain ⟨e', he'⟩ := ih hmem'
        exact ⟨e', by simp [process_footprints, h, he']⟩
      · cases hcf : a.curve_fit with
        | ok pars =>
          obtain ⟨e', he'⟩ := ih hmem'
          exact ⟨e', by simp [process_footprints, h, hcf, he', except_error_bind]⟩
        | runtimeError =>
          obtain ⟨e', he'⟩ := ih hmem'
          exact ⟨e', by simp [process_footprints, h, hcf, he']⟩
        | raised e2 =>
          exact ⟨e2, by simp [process_footprints, h, hcf]⟩

/-- C2: in `process_image`, a footprint whose 4-parameter fit raises
`RuntimeError` contributes no entry to any of the `x0, y0, sigma, dn,
chiprob` lists and processing continues with the remaining footprints
(the call behaves exactly as if the footprint were absent), while a
non-`RuntimeError` exception raised during a fit propagates out of
`process_image`. -/
theorem process_image_error_handling (sqrt2 : ℚ) (erf : ℚ → ℚ)
    (gammaincc : ℚ → ℚ → ℚ) (channelIds : ℕ → String) (s : PsfGaussFit)
    (amp : ℕ) (fps1 fps2 : List Footprint) (fp : Footprint) :
    (fp.curve_fit = FitOutcome.runtimeError →
      process_image sqrt2 erf gammaincc channelIds s (fps1 ++ fp :: fps2) amp
        = process_image sqrt2 erf gammaincc channelIds s (fps1 ++ fps2) amp) ∧
    (∀ (fps : List Footprint) (fpe : Footprint) (e : PyError),
      fpe ∈ fps → s.min_npix ≤ fpe.npix →
      fpe.curve_fit = FitOutcome.raised e →
      ∃ e', process_image sqrt2 erf gammaincc channelIds s fps amp
        = Except.error e') := by
  constructor
  · intro hfp
    unfold process_image
    rw [process_footprints_runtimeError_skip sqrt2 erf gammaincc s.min_npix
      fps1 fps2 fp hfp]
  · intro fps fpe e hmem hnp he
    obtain ⟨e', he'⟩ := process_footprints_raised_propagates sqrt2 erf
      gammaincc s.min_npix fps fpe e hmem hnp he
    exact ⟨e', by simp [process_image, he', except_error_bind]⟩

/-- C2 witness: with a concrete state and footprints, the
`RuntimeError` footprint is skipped and a `raised` footprint makes the
call raise. -/
theorem process_image_error_handling_witness :
    process_image 1 (fun q => q) (fun _ _ => 0) (fun _ => "")
        (PsfGaussFit.init 3 5)
        ([] ++ ⟨5, [], [], FitOutcome.runtimeError⟩ :: []) 1
      = process_image 1 (fun q => q) (fun _ _ => 0) (fun _ => "")
          (PsfGaussFit.init 3 5) ([] ++ []) 1 ∧
    (∃ e', process_image 1 (fun q => q) (fun _ _ => 0) (fun _ => "")
        (PsfGaussFit.init 3 5)
        [⟨5, [], [], FitOutcome.raised PyError.indexError⟩] 1
      = Except.error e') :=
  ⟨(process_image_error_handling 1 (fun q => q) (fun _ _ => 0) (fun _ => "")
      (PsfGaussFit.init 3 5) 1 [] []
      ⟨5, [], [], FitOutcome.runtimeError⟩).1 rfl,
   (process_image_error_handling 1 (fun q => q) (fun _ _ => 0) (fun _ => "")
      (PsfGaussFit.init 3 5) 1 [] []
      ⟨5, [], [], FitOutcome.runtimeError⟩).2
     [⟨5, [], [], FitOutcome.raised PyError.indexError⟩]
     ⟨5, [], [], FitOutcome.raised PyError.indexError⟩
     PyError.indexError (List.mem_singleton.mpr rfl) (Nat.le_refl 5) rfl⟩

/-- When no footprint's fit raised a foreign exception, the footprint
loop succeeds and all five result lists have length equal to the number
of footprints that pass the `min_npix` cut and whose fit succeeded. -/
lemma process_footprints_ok_lengths (sqrt2 : ℚ) (erf : ℚ → ℚ)
    (gammaincc : ℚ → ℚ → ℚ) (min_npix : ℕ) (fps : List Footprint)
    (hok : ∀ fp ∈ fps, ∀ e, fp.curve_fit ≠ FitOutcome.raised e) :
    ∃ x0 y0 sigma dn chiprob,
      process_footprints sqrt2 erf gammaincc min_npix fps
        = Except.ok (x0, y0, sigma, dn, chiprob) ∧
      x0.length = (fps.filter fun fp =>
        decide (min_npix ≤ fp.npix) && fp.curve_fit.isOk).length ∧
      y0.length = x0.length ∧ sigma.length = x0.length ∧
      dn.length = x0.length ∧ chiprob.length = x0.length := by
  induction fps with
  | nil => exact ⟨[], [], [], [], [], rfl, by simp, rfl, rfl, rfl, rfl⟩
  | cons a fps ih =>
    have hok' : ∀ fp ∈ fps, ∀ e, fp.curve_fit ≠ FitOutcome.raised e :=
      fun fp hfp e => hok fp (List.mem_cons_of_mem a hfp) e
    obtain ⟨x0, y0, sigma, dn, chiprob, heq, hl0, hl1, hl2, hl3, hl4⟩ :=
      ih hok'
    by_cases h : a.npix < min_npix
    · have hcut : decide (min_npix ≤ a.npix) = false := by
        simp [Nat.not_le.mpr h]
      refine ⟨x0, y0, sigma, dn, chiprob, ?_, ?_, hl1, hl2, hl3, hl4⟩
      · simp [process_footprints, h, heq]
      · simp [List.filter_cons, hcut, hl0]
    · have hcut : decide (min_npix ≤ a.npix) = true := by
        simp [Nat.not_lt.mp h]
      cases hcf : a.curve_fit with
      | ok pars =>
        refine ⟨pars.1 :: x0, pars.2.1 :: y0, pars.2.2.1 :: sigma,
          pars.2.2.2 :: dn,
          gammaincc (((a.npix : ℚ) - 4) / 2)
            (chisq sqrt2 erf a.positions a.zvals pars / 2) :: chiprob,
          ?_, ?_, by simp [hl1], by simp [hl2], by simp [hl3], by simp [hl4]⟩
        · simp [process_footprints, h, hcf, heq, except_ok_bind]
        · simp [List.filter_cons, hcut, hcf, FitOutcome.isOk, hl0]
      | runtimeError =>
        refine ⟨x0, y0, sigma, dn, chiprob, ?_, ?_, hl1, hl2, hl3, hl4⟩
        · simp [process_footprints, h, hcf, heq]
        · simp [List.filter_cons, hcut, hcf, FitOutcome.isOk, hl0]
      | raised e =>
        exact absurd hcf (hok a (List.mem_cons_self a fps) e)

/-- C4: a call to `process_image` in which no fit raises a foreign
exception appends exactly one table extension, named `'Segment'`
followed by the channel id of `amp`, whose five columns `XPOS, YPOS,
SIGMA, DN, CHIPROB` all have length equal to the number of footprints
with at least `min_npix` pixels whose fit succeeded; smaller footprints
contribute no row, and the three accumulator lists grow by the same
rows. -/
theorem process_image_appends_one_segment (sqrt2 : ℚ) (erf : ℚ → ℚ)
    (gammaincc : ℚ → ℚ → ℚ) (channelIds : ℕ → String) (s : PsfGaussFit)
    (fps : List Footprint) (amp : ℕ)
    (hok : ∀ fp ∈ fps, ∀ e, fp.curve_fit ≠ FitOutcome.raised e) :
    ∃ x0 y0 sigma dn chiprob : List ℚ,
      process_image sqrt2 erf gammaincc channelIds s fps amp
        = Except.ok { s with
            output := s.output ++ [FitsHDU.table
              { extname := "Segment" ++ channelIds amp
                cols := [("XPOS", x0), ("YPOS", y0), ("SIGMA", sigma),
                         ("DN", dn), ("CHIPROB", chiprob)] }]
            sigma := s.sigma ++ sigma
            dn := s.dn ++ dn
            chiprob := s.chiprob ++ chiprob } ∧
      x0.length = (fps.filter fun fp =>
        decide (s.min_npix ≤ fp.npix) && fp.curve_fit.isOk).length ∧
      y0.length = x0.length ∧ sigma.length = x0.length ∧
      dn.length = x0.length ∧ chiprob.length = x0.length := by
  obtain ⟨x0, y0, sigma, dn, chiprob, heq, hl0, hl1, hl2, hl3, hl4⟩ :=
    process_footprints_ok_lengths sqrt2 erf gammaincc s.min_npix fps hok
  exact ⟨x0, y0, sigma, dn, chiprob,
    by simp [process_image, heq, save_ext_data, except_ok_bind], hl0, hl1, hl2, hl3, hl4⟩

/-- C4 witness: a concrete call with one undersized footprint, one
successful fit and one `RuntimeError` produces one extension with
single-entry columns. -/
theorem process_image_appends_one_segment_witness :
    (∀ fp ∈ [(⟨4, [], [], FitOutcome.ok (1, 2, 3, 4)⟩ : Footprint),
             ⟨5, [], [], FitOutcome.ok (5, 6, 7, 8)⟩,
             ⟨6, [], [], FitOutcome.runtimeError⟩],
      ∀ e, fp.curve_fit ≠ FitOutcome.raised e) ∧
    (∃ x0 y0 sigma dn chiprob : List ℚ,
      process_image 1 (fun q => q) (fun _ _ => 0) (fun _ => "10")
          (PsfGaussFit.init 3 5)
          [⟨4, [], [], FitOutcome.ok (1, 2, 3, 4)⟩,
           ⟨5, [], [], FitOutcome.ok (5, 6, 7, 8)⟩,
           ⟨6, [], [], FitOutcome.runtimeError⟩] 1
        = Except.ok { PsfGaussFit.init 3 5 with
            output := (PsfGaussFit.init 3 5).output ++ [FitsHDU.table
              { extname := "Segment" ++ "10"
                cols := [("XPOS", x0), ("YPOS", y0), ("SIGMA", sigma),
                         ("DN", dn), ("CHIPROB", chiprob)] }]
            sigma := (PsfGaussFit.init 3 5).sigma ++ sigma
            dn := (PsfGaussFit.init 3 5).dn ++ dn
            chiprob := (PsfGaussFit.init 3 5).chiprob ++ chiprob } ∧
      x0.length = ([(⟨4, [], [], FitOutcome.ok (1, 2, 3, 4)⟩ : Footprint),
             ⟨5, [], [], FitOutcome.ok (5, 6, 7, 8)⟩,
             ⟨6, [], [], FitOutcome.runtimeError⟩].filter fun fp =>
        decide ((PsfGaussFit.init 3 5).min_npix ≤ fp.npix) &&
          fp.curve_fit.isOk).length ∧
      y0.length = x0.length ∧ sigma.length = x0.length ∧
      dn.length = x0.length ∧ chiprob.length = x0.length) := by
  have hok : ∀ fp ∈ [(⟨4, [], [], FitOutcome.ok (1, 2, 3, 4)⟩ : Footprint),
      ⟨5, [], [], FitOutcome.ok (5, 6, 7, 8)⟩,
      ⟨6, [], [], FitOutcome.runtimeError⟩],
      ∀ e, fp.curve_fit ≠ FitOutcome.raised e := by
    intro fp hfp e
    rcases List.mem_cons.mp hfp with rfl | hfp
    · simp
    rcases List.mem_cons.mp hfp with rfl | hfp
    · simp
    rcases List.mem_cons.mp hfp with rfl | hfp
    · simp
    · cases hfp
  exact ⟨hok, process_image_appends_one_segment 1 (fun q => q)
    (fun _ _ => 0) (fun _ => "10") (PsfGaussFit.init 3 5) _ 1 hok⟩

/-- Selecting a sibling list by the indices at which a predicate holds of
`chiprob` equals filtering the zipped pair list on the predicate. -/
lemma select_indices_eq (p : ℚ → Bool) :
    ∀ cp sig : List ℚ, sig.length = cp.length →
      ((List.range cp.length).filter fun i => p (cp.getD i 0)).map
          (fun i => sig.getD i 0)
        = ((sig.zip cp).filter fun t => p t.2).map Prod.fst := by
  intro cp
  induction cp with
  | nil =>
    intro sig h
    rw [List.length_eq_zero.mp h]
    rfl
  | cons c cp ih =>
    intro sig h
    cases sig with
    | nil => simp at h
    | cons a sig =>
      have h' : sig.length = cp.length := by simpa using h
      rw [show (c :: cp).length = cp.length + 1 from rfl,
        List.range_succ_eq_map, List.filter_cons, List.filter_map]
      by_cases hc : p c
      · simp only [List.getD_cons_zero, hc, if_true, List.map_cons,
          List.map_map, List.zip_cons_cons, List.filter_cons]
        refine congrArg (a :: ·) ?_
        rw [← ih sig h']
        rfl
      · simp only [List.getD_cons_zero, hc, if_false, List.map_map,
          List.zip_cons_cons, List.filter_cons, Bool.false_eq_true]
        rw [← ih sig h']
        rfl

/-- The three pairwise selections of C7 agree with projections of the
filtered triple list. -/
lemma triple_select (p : ℚ → Bool) :
    ∀ cp sig d : List ℚ, sig.length = cp.length → d.length = cp.length →
      (((sig.zip cp).filter fun t => p t.2).map Prod.fst
          = ((sig.zip (d.zip cp)).filter fun t => p t.2.2).map
              (fun t => t.1)) ∧
      (((d.zip cp).filter fun t => p t.2).map Prod.fst
          = ((sig.zip (d.zip cp)).filter fun t => p t.2.2).map
              (fun t => t.2.1)) ∧
      (((cp.zip cp).filter fun t => p t.2).map Prod.fst
          = ((sig.zip (d.zip cp)).filter fun t => p t.2.2).map
              (fun t => t.2.2)) := by
  intro cp
  induction cp with
  | nil => intro sig d _ _; simp
  | cons c cp ih =>
    intro sig d hs hd
    cases sig with
    | nil => simp at hs
    | cons a sig =>
      cases d with
      | nil => simp at hd
      | cons b d =>
        have hs' : sig.length = cp.length := by simpa using hs
        have hd' : d.length = cp.length := by simpa using hd
        obtain ⟨ih1, ih2, ih3⟩ := ih sig d hs' hd'
        by_cases hc : p c
        · refine ⟨?_, ?_, ?_⟩ <;>
            simp [List.zip_cons_cons, List.filter_cons, hc, ih1, ih2, ih3]
        · refine ⟨?_, ?_, ?_⟩ <;>
            simp [List.zip_cons_cons, List.filter_cons, hc, ih1, ih2, ih3]

/-- C7: for every `min_prob`, `results(min_prob)` returns exactly the
accumulated `(sigma, dn, chiprob)` triples whose `chiprob` is strictly
greater than `min_prob`, in accumulation order, as three equal-length
arrays; triples with `chiprob ≤ min_prob` appear in none of them.  The
function reads the accumulated lists without modifying them. -/
theorem results_filters_chiprob (min_prob : ℚ) (s : PsfGaussFit)
    (h1 : s.sigma.length = s.chiprob.length)
    (h2 : s.dn.length = s.chiprob.length) :
    results min_prob s
      = (((s.sigma.zip (s.dn.zip s.chiprob)).filter fun t =>
            decide (min_prob < t.2.2)).map (fun t => t.1),
         ((s.sigma.zip (s.dn.zip s.chiprob)).filter fun t =>
            decide (min_prob < t.2.2)).map (fun t => t.2.1),
         ((s.sigma.zip (s.dn.zip s.chiprob)).filter fun t =>
            decide (min_prob < t.2.2)).map (fun t => t.2.2)) ∧
    (results min_prob s).1.length = (results min_prob s).2.1.length ∧
    (results min_prob s).2.1.length = (results min_prob s).2.2.length := by
  obtain ⟨t1, t2, t3⟩ := triple_select (fun q => decide (min_prob < q))
    s.chiprob s.sigma s.dn h1 h2
  have e1 := select_indices_eq (fun q => decide (min_prob < q))
    s.chiprob s.sigma h1
  have e2 := select_indices_eq (fun q => decide (min_prob < q))
    s.chiprob s.dn h2
  have e3 := select_indices_eq (fun q => decide (min_prob < q))
    s.chiprob s.chiprob rfl
  have e1' : ((List.range s.chiprob.length).filter fun i =>
        decide (min_prob < s.chiprob.getD i 0)).map (fun i => s.sigma.getD i 0)
      = ((s.sigma.zip (s.dn.zip s.chiprob)).filter fun t =>
          decide (min_prob < t.2.2)).map (fun t => t.1) := e1.trans t1
  have e2' : ((List.range s.chiprob.length).filter fun i =>
        decide (min_prob < s.chiprob.getD i 0)).map (fun i => s.dn.getD i 0)
      = ((s.sigma.zip (s.dn.zip s.chiprob)).filter fun t =>
          decide (min_prob < t.2.2)).map (fun t => t.2.1) := e2.trans t2
  have e3' : ((List.range s.chiprob.length).filter fun i =>
        decide (min_prob < s.chiprob.getD i 0)).map
          (fun i => s.chiprob.getD i 0)
      = ((s.sigma.zip (s.dn.zip s.chiprob)).filter fun t =>
          decide (min_prob < t.2.2)).map (fun t => t.2.2) := e3.trans t3
  have hres : results min_prob s
      = (((s.sigma.zip (s.dn.zip s.chiprob)).filter fun t =>
            decide (min_prob < t.2.2)).map (fun t => t.1),
         ((s.sigma.zip (s.dn.zip s.chiprob)).filter fun t =>
            decide (min_prob < t.2.2)).map (fun t => t.2.1),
         ((s.sigma.zip (s.dn.zip s.chiprob)).filter fun t =>
            decide (min_prob < t.2.2)).map (fun t => t.2.2)) := by
    show (((List.range s.chiprob.length).filter fun i =>
        decide (min_prob < s.chiprob.getD i 0)).map (fun i => s.sigma.getD i 0),
      ((List.range s.chiprob.length).filter fun i =>
        decide (min_prob < s.chiprob.getD i 0)).map (fun i => s.dn.getD i 0),
      ((List.range s.chiprob.length).filter fun i =>
        decide (min_prob < s.chiprob.getD i 0)).map
          (fun i => s.chiprob.getD i 0)) = _
    rw [e1', e2', e3']
  refine ⟨hres, ?_, ?_⟩ <;> rw [hres] <;> simp

/-- C7 witness: concrete accumulated state with one passing and one
failing triple. -/
theorem results_filters_chiprob_witness :
    ([(1 : ℚ), 2].length = [(1 : ℚ)/2, 1/20].length) ∧
    (results (1/10) ⟨3, 5, [1, 2], [3, 4], [1/2, 1/20], [FitsHDU.primary]⟩
      = ((([(1 : ℚ), 2].zip ([(3 : ℚ), 4].zip [(1 : ℚ)/2, 1/20])).filter
            fun t => decide ((1 : ℚ)/10 < t.2.2)).map (fun t => t.1),
         (([(1 : ℚ), 2].zip ([(3 : ℚ), 4].zip [(1 : ℚ)/2, 1/20])).filter
            fun t => decide ((1 : ℚ)/10 < t.2.2)).map (fun t => t.2.1),
         (([(1 : ℚ), 2].zip ([(3 : ℚ), 4].zip [(1 : ℚ)/2, 1/20])).filter
            fun t => decide ((1 : ℚ)/10 < t.2.2)).map (fun t => t.2.2)) ∧
      (results (1/10)
          ⟨3, 5, [1, 2], [3, 4], [1/2, 1/20], [FitsHDU.primary]⟩).1.length
        = (results (1/10)
            ⟨3, 5, [1, 2], [3, 4], [1/2, 1/20], [FitsHDU.primary]⟩).2.1.length ∧
      (results (1/10)
          ⟨3, 5, [1, 2], [3, 4], [1/2, 1/20], [FitsHDU.primary]⟩).2.1.length
        = (results (1/10)
            ⟨3, 5, [1, 2], [3, 4], [1/2, 1/20], [FitsHDU.primary]⟩).2.2.length) :=
  ⟨rfl, results_filters_chiprob (1/10)
    ⟨3, 5, [1, 2], [3, 4], [1/2, 1/20], [FitsHDU.primary]⟩ rfl rfl⟩

end Fe55Psf

namespace NLC

/-- The attribute state of a `NonlinearityCorrection` object: the three
`16 × nbins` profile arrays stored by `__init__`; `_prof_yerr` may be
`None`. -/
structure NonlinearityCorrection where
  prof_x : List (List ℚ)
  prof_y : List (List ℚ)
  prof_yerr : Option (List (List ℚ))
deriving Repr, DecidableEq

/-- The data `__init__` feeds to `UnivariateSpline` for amplifier index
`iamp`: `profile_x[mask], profile_y[mask]` with `mask = profile_yerr >=
0.` when `_prof_yerr` is not `None`, and the whole profiles under the
all-ones mask otherwise. -/
def spline_inputs (d : NonlinearityCorrection) (iamp : ℕ) :
    List ℚ × List ℚ :=
  let profile_x := d.prof_x.getD iamp []
  let profile_y := d.prof_y.getD iamp []
  match d.prof_yerr with
  | some yerr =>
    let profile_yerr := yerr.getD iamp []
    (((profile_x.zip profile_yerr).filter fun t =>
        decide (0 ≤ t.2)).map Prod.fst,
     ((profile_y.zip profile_yerr).filter fun t =>
        decide (0 ≤ t.2)).map Prod.fst)
  | none => (profile_x, profile_y)

/-- `__call__(amp, adu) = adu*(1 + self._spline_dict[amp-1](adu))`.
`scipy.interpolate.UnivariateSpline` is an abstract parameter mapping the
masked profile data to a function; it is deterministic in its inputs. -/
def call (univariateSpline : List ℚ → List ℚ → ℚ → ℚ)
    (d : NonlinearityCorrection) (amp : ℕ) (adu : ℚ) : ℚ :=
  adu * (1 + univariateSpline (spline_inputs d (amp - 1)).1
               (spline_inputs d (amp - 1)).2 adu)

/-- A FITS binary-table column whose cells are fixed-length vectors
(format `'%iE'`); the numeric content is modelled exactly. -/
structure FitsVecColumn where
  name : String
  data : List (List ℚ)
deriving Repr, DecidableEq

/-- A FITS binary table extension with vector columns. -/
structure FitsVecTable where
  extname : String
  cols : List FitsVecColumn
deriving Repr, DecidableEq

/-- An HDU of the written file. -/
inductive FitsVecHDU where
  | primary
  | table (t : FitsVecTable)
deriving Repr, DecidableEq

/-- `NonlinearityCorrection.write_to_fits(fits_file)`: a primary HDU
followed by one table named `'nonlin'` with columns `prof_x`, `prof_y`,
`prof_yerr` holding the three profile arrays.  (The claims restrict to
`_prof_yerr` not `None`, so the written column holds its rows.) -/
def write_to_fits (d : NonlinearityCorrection) : List FitsVecHDU :=
  [.primary,
   .table { extname := "nonlin"
            cols := [⟨"prof_x", d.prof_x⟩, ⟨"prof_y", d.prof_y⟩,
                     ⟨"prof_yerr", d.prof_yerr.getD []⟩] }]

/-- `table.data[name]`: the column of that name. -/
def table_column (t : FitsVecTable) (name : String) :
    Option (List (List ℚ)) :=
  (t.cols.find? fun c => c.name == name).map fun c => c.data

/-- `hdulist[hdu_name]`: the table extension of that EXTNAME. -/
def find_hdu (hdus : List FitsVecHDU) (name : String) :
    Option FitsVecTable :=
  hdus.findSome? fun h => match h with
    | .primary => none
    | .table t => if t.extname == name then some t else none

/-- `NonlinearityCorrection.create_from_table(table)`: rebuild the object
from the three columns (`prof_yerr` read from the file is never `None`). -/
def create_from_table (t : FitsVecTable) : Option NonlinearityCorrection := do
  let prof_x ← table_column t "prof_x"
  let prof_y ← table_column t "prof_y"
  let prof_yerr ← table_column t "prof_yerr"
  some ⟨prof_x, prof_y, some prof_yerr⟩

/-- `NonlinearityCorrection.create_from_fits_file(fits_file, hdu_name)`. -/
def create_from_fits_file (hdus : List FitsVecHDU)
    (hdu_name : String) : Option NonlinearityCorrection := do
  let t ← find_hdu hdus hdu_name
  create_from_table t

/-- C5: for every `NonlinearityCorrection` with non-`None` `_prof_yerr`,
writing with `write_to_fits` and reading back with
`create_from_fits_file` restores `_prof_x`, `_prof_y`, `_prof_yerr`
exactly, so `__call__(amp, adu) = adu*(1 + spline(adu))` computes the
same function before and after the round trip (for every value of the
abstract `UnivariateSpline`). -/
theorem nonlinearity_roundtrip (d : NonlinearityCorrection)
    (yerr : List (List ℚ)) (h : d.prof_yerr = some yerr) :
    create_from_fits_file (write_to_fits d) "nonlin" = some d ∧
    (∀ d2, create_from_fits_file (write_to_fits d) "nonlin" = some d2 →
      ∀ (univariateSpline : List ℚ → List ℚ → ℚ → ℚ) (amp : ℕ) (adu : ℚ),
        call univariateSpline d2 amp adu
          = call univariateSpline d amp adu) := by
  obtain ⟨px, py, pe⟩ := d
  cases h
  refine ⟨rfl, ?_⟩
  intro d2 h2 univariateSpline amp adu
  have : d2 = ⟨px, py, some yerr⟩ := by
    have := h2.symm.trans (rfl :
      create_from_fits_file (write_to_fits ⟨px, py, some yerr⟩) "nonlin"
        = some ⟨px, py, some yerr⟩)
    exact Option.some.inj this
  rw [this]

/-- C5 witness: a concrete one-amp, one-bin object round-trips. -/
theorem nonlinearity_roundtrip_witness :
    (NonlinearityCorrection.mk [[1]] [[2]] (some [[3]])).prof_yerr
      = some [[3]] ∧
    (create_from_fits_file
        (write_to_fits ⟨[[1]], [[2]], some [[3]]⟩) "nonlin"
      = some ⟨[[1]], [[2]], some [[3]]⟩ ∧
    (∀ d2, create_from_fits_file
        (write_to_fits ⟨[[1]], [[2]], some [[3]]⟩) "nonlin" = some d2 →
      ∀ (univariateSpline : List ℚ → List ℚ → ℚ → ℚ) (amp : ℕ) (adu : ℚ),
        call univariateSpline d2 amp adu
          = call univariateSpline ⟨[[1]], [[2]], some [[3]]⟩ amp adu)) :=
  ⟨rfl, nonlinearity_roundtrip ⟨[[1]], [[2]], some [[3]]⟩ [[3]] rfl⟩

end NLC

namespace Prnu

/-- An input flat-frame file as `PrnuTask.run` sees it: its name and its
rounded `MONOWL` header value. -/
structure PrnuFile where
  name : String
  monowl : ℤ
deriving Repr, DecidableEq

/-- The fixed wavelength tuple iterated by `PrnuTask.run`. -/
def prnu_wavelengths : List ℤ := [350, 450, 500, 620, 750, 870, 1000]

/-- The `wl_index` dict: the last input file whose rounded `MONOWL`
equals `wl` (later files overwrite earlier entries). -/
def wl_index (prnu_files : List PrnuFile) (wl : ℤ) : Option PrnuFile :=
  prnu_files.reverse.find? fun f => f.monowl == wl

/-- The ordered `results` dict built by the wavelength loop of
`PrnuTask.run`; the external `prnu(...)` measurement is the abstract
`prnu_fn`.  Wavelengths without a matching exposure get the sentinel
pair `(-1, -1)`. -/
def run_results (prnu_fn : PrnuFile → ℚ × ℚ)
    (prnu_files : List PrnuFile) : List (ℤ × ℚ × ℚ) :=
  prnu_wavelengths.map fun wl =>
    match wl_index prnu_files wl with
    | some f => (wl, prnu_fn f)
    | none => (wl, (-1, -1))

/-- `PrnuTask.write(results, outfile)`: the rows of the written
`PRNU_RESULTS` table — zero-initialised `WAVELENGTH, STDEV, MEAN`
columns of length `len(results)`, row `i` overwritten with the i-th key
and its pair. -/
def write (results : List (ℤ × ℚ × ℚ)) : List (ℤ × ℚ × ℚ) :=
  results.map fun r => (r.1, r.2.1, r.2.2)

/-- `PrnuTask.run(sensor_id, prnu_files, ...)`.  The local `outfile` is
assigned only in the `results_file is None` branch, yet
`self.write(results, outfile)` runs unconditionally, so a non-`None`
`eotest_results_file` configuration reads an unbound local.  On success
the call returns the results dict, paired here with the rows written. -/
def run (prnu_fn : PrnuFile → ℚ × ℚ) (eotest_results_file : Option String)
    (output_dir sensor_id : String) (prnu_files : List PrnuFile) :
    Except PyError (List (ℤ × ℚ × ℚ) × List (ℤ × ℚ × ℚ)) :=
  let results := run_results prnu_fn prnu_files
  let outfile : Option String :=
    match eotest_results_file with
    | none => some (output_dir ++ "/" ++ sensor_id ++ "_eotest_results.fits")
    | some _ => none
  match outfile with
  | some _ => .ok (results, write results)
  | none => .error (.nameError "outfile")

/-- The keys of the results dict are the seven wavelengths in order. -/
lemma run_results_keys (prnu_fn : PrnuFile → ℚ × ℚ)
    (prnu_files : List PrnuFile) :
    (run_results prnu_fn prnu_files).map Prod.fst = prnu_wavelengths := by
  unfold run_results
  rw [List.map_map]
  have h : ∀ wl ∈ prnu_wavelengths,
      (Prod.fst ∘ fun wl => match wl_index prnu_files wl with
        | some f => (wl, prnu_fn f)
        | none => (wl, ((-1 : ℚ), (-1 : ℚ)))) wl = id wl := by
    intro wl _
    simp only [Function.comp_apply, id_eq]
    cases wl_index prnu_files wl <;> rfl
  rw [List.map_congr_left h, List.map_id]

/-- C6: with `eotest_results_file` left at `None`, `PrnuTask.run` returns
the ordered mapping whose keys are exactly `350, 450, 500, 620, 750,
870, 1000` in that order; every wavelength with no matching input
exposure maps to the sentinel pair `(-1, -1)`; and `write` persists
exactly one `(WAVELENGTH, STDEV, MEAN)` row per wavelength. -/
theorem prnu_run_wavelengths (prnu_fn : PrnuFile → ℚ × ℚ)
    (output_dir sensor_id : String) (prnu_files : List PrnuFile) :
    run prnu_fn none output_dir sensor_id prnu_files
      = Except.ok (run_results prnu_fn prnu_files,
          write (run_results prnu_fn prnu_files)) ∧
    (run_results prnu_fn prnu_files).map Prod.fst
      = [350, 450, 500, 620, 750, 870, 1000] ∧
    (∀ wl ∈ prnu_wavelengths, (∀ f ∈ prnu_files, f.monowl ≠ wl) →
      (wl, ((-1 : ℚ), (-1 : ℚ))) ∈ run_results prnu_fn prnu_files) ∧
    (write (run_results prnu_fn prnu_files)).length = 7 ∧
    (write (run_results prnu_fn prnu_files)).map Prod.fst
      = [350, 450, 500, 620, 750, 870, 1000] := by
  refine ⟨rfl, run_results_keys prnu_fn prnu_files, ?_, ?_, ?_⟩
  · intro wl hwl hno
    have hnone : wl_index prnu_files wl = none := by
      apply List.find?_eq_none.mpr
      intro f hf
      have : f.monowl ≠ wl := hno f (List.mem_reverse.mp hf)
      simpa using this
    refine List.mem_map.mpr ⟨wl, hwl, ?_⟩
    rw [hnone]
  · simp [write, run_results, prnu_wavelengths]
  · have : (write (run_results prnu_fn prnu_files)).map Prod.fst
        = (run_results prnu_fn prnu_files).map Prod.fst := by
      unfold write
      rw [List.map_map]
      rfl
    rw [this, run_results_keys]
    rfl

/-- C6 witness: a concrete file list with one 500 nm exposure. -/
theorem prnu_run_wavelengths_witness :
    run (fun _ => ((0 : ℚ), (0 : ℚ))) none "out" "s" [⟨"f", 500⟩]
      = Except.ok (run_results (fun _ => ((0 : ℚ), (0 : ℚ))) [⟨"f", 500⟩],
          write (run_results (fun _ => ((0 : ℚ), (0 : ℚ))) [⟨"f", 500⟩])) ∧
    (run_results (fun _ => ((0 : ℚ), (0 : ℚ))) [⟨"f", 500⟩]).map Prod.fst
      = [350, 450, 500, 620, 750, 870, 1000] ∧
    (∀ wl ∈ prnu_wavelengths,
      (∀ f ∈ [(⟨"f", 500⟩ : PrnuFile)], f.monowl ≠ wl) →
      (wl, ((-1 : ℚ), (-1 : ℚ)))
        ∈ run_results (fun _ => ((0 : ℚ), (0 : ℚ))) [⟨"f", 500⟩]) ∧
    (write (run_results (fun _ => ((0 : ℚ), (0 : ℚ))) [⟨"f", 500⟩])).length
      = 7 ∧
    (write (run_results (fun _ => ((0 : ℚ), (0 : ℚ))) [⟨"f", 500⟩])).map
        Prod.fst
      = [350, 450, 500, 620, 750, 870, 1000] :=
  prnu_run_wavelengths (fun _ => ((0 : ℚ), (0 : ℚ))) "out" "s" [⟨"f", 500⟩]

/-- C9: whenever `config.eotest_results_file` is not `None`,
`PrnuTask.run` raises `NameError` (`UnboundLocalError` for the local
`outfile`, assigned only in the `None` branch yet read unconditionally
by `self.write(results, outfile)`), so no results file is written in
that configuration. -/
theorem prnu_run_nameError_when_results_file_set
    (prnu_fn : PrnuFile → ℚ × ℚ) (results_file output_dir
    sensor_id : String) (prnu_files : List PrnuFile) :
    run prnu_fn (some results_file) output_dir sensor_id prnu_files
      = Except.error (PyError.nameError "outfile") := rfl

end Prnu

namespace Spot

/-- The side effects of `SpotTask.run` relevant here: reading the input
image and writing the source catalog. -/
inductive Effect where
  | readImage (f : String)
  | writeCatalog (f : String)
deriving Repr, DecidableEq

/-- The names bound at module scope in `spotTask.py` (imports and
top-level definitions). -/
def module_globals : List String :=
  ["print_function", "absolute_import", "os", "np", "fits", "imutils",
   "afwImage", "pexConfig", "pipeBase", "CharacterizeImageTask",
   "CharacterizeImageConfig", "lsst", "MaskedCCD", "parse_geom_kwd",
   "make_ccd_mosaic", "SpotConfig", "SpotTask"]

/-- The local names of `SpotTask.run` bound at entry (its parameters);
no statement in the body ever assigns `infiles` or `spot_catalog`. -/
def run_locals : List String :=
  ["self", "sensor_id", "infile", "gains", "bias_frame", "oscan_fit_order"]

/-- Python name resolution at a use site in `SpotTask.run`: locals, then
module globals (builtins define neither of the names of interest). -/
def resolve_name (name : String) : Except PyError Unit :=
  if name ∈ run_locals ∨ name ∈ module_globals then Except.ok ()
  else Except.error (.nameError name)

/-- `SpotTask.run(self, sensor_id, infile, gains, bias_frame,
oscan_fit_order)`.  Its first statement evaluates
`imutils.check_temperatures(infiles, ...)`, so the name `infiles` is
resolved before anything else; `spot_catalog` is resolved in the next
statement; only after both would the body read the mosaic from `infile`
and write the catalog file. -/
def run (sensor_id infile : String) (output_file : Option String)
    (output_dir : String) : Except PyError (List Effect) := do
  let _ ← resolve_name "infiles"
  let _ ← resolve_name "spot_catalog"
  let out := match output_file with
    | none => output_dir ++ "/" ++ sensor_id ++ "_source_catalog.cat"
    | some f => output_dir ++ "/" ++ f
  Except.ok [Effect.readImage infile, Effect.writeCatalog out]

/-- C8: `SpotTask.run` raises `NameError` for `infiles` on every
invocation — the parameter is named `infile`, and neither `infiles` nor
`spot_catalog` is ever assigned — before any image is read or any output
is written (the error result carries no effects). -/
theorem spotTask_run_nameError (sensor_id infile : String)
    (output_file : Option String) (output_dir : String) :
    run sensor_id infile output_file output_dir
      = Except.error (PyError.nameError "infiles") := rfl

end Spot
